import Mathlib

/-!
# Verification of the flight-buddy-ai document ingestion and retrieval pipeline

This file gives a shallow embedding, in Lean 4, of the core of the
repository `A321-DSS-HQ/flight-buddy-ai`:

* the chunker `splitTextIntoChunks` and the ingestion handler of
  `supabase/functions/process-pdf/index.ts` (the first, deployed copy in
  that file),
* the retrieval handler of `supabase/functions/search-documents/index.ts`,
* the extraction handler of `api/pdf-extract.ts` (the first, deployed copy).

Texts are modelled as `List Char` (`Str` below).  JavaScript string
primitives used by the source (`slice`, `lastIndexOf`, `trim`) are modelled
exactly, including `slice`'s negative-index semantics.  Machine floats occur
in the source only in `chunkSize * 0.5` (an exact half of an integer, encoded
over `Int` by doubling both sides), in text densities (modelled over `ℚ`),
and in similarity scores (modelled over `ℚ`).

The external collaborators (embedding provider, OCR engine, PDF engine,
full-text matcher of the store) are passed to the handlers as explicit
function arguments, as they are the oracles the source calls over the
network; the relational store is modelled as an explicit pure state (`DB`).
-/

/-- Texts, modelled as lists of characters. -/
abbrev Str := List Char

/-- JavaScript `String.prototype.slice` index resolution:
a negative index counts from the end (clamped at 0), a non-negative one
is clamped at the length. -/
def jsSliceIdx (n : Nat) (a : Int) : Nat :=
  if a < 0 then (a + n).toNat else min a.toNat n

/-- JavaScript `s.slice(a, b)`: the characters of `s` with positions in
`[jsSliceIdx a, jsSliceIdx b)`. -/
def jsSlice (s : Str) (a b : Int) : Str :=
  (s.take (jsSliceIdx s.length b)).drop (jsSliceIdx s.length a)

/-- JavaScript `s.lastIndexOf(c)` for a one-character needle: the largest
position holding `c`, or `-1` when there is none. -/
def jsLastIndexOf (c : Char) (s : Str) : Int :=
  match s.reverse.findIdx? (· = c) with
  | none => -1
  | some i => (s.length : Int) - 1 - i

/-- JavaScript `s.trim()` (over the ASCII whitespace the repository's texts
use): drop whitespace from both ends. -/
def jsTrim (s : Str) : Str :=
  ((s.dropWhile Char.isWhitespace).reverse.dropWhile Char.isWhitespace).reverse

/-- One chunk produced by `splitTextIntoChunks` (fields `content`, `page`,
`section` of the pushed object; `section` is a Lean keyword, hence `sect`). -/
structure JsChunk where
  content : Str
  page : Int
  sect : Option Str
  deriving Repr, DecidableEq

/-- The page-number heuristic and the section-title heuristic of the source
(`chunkText.match(...)` regexes at `process-pdf/index.ts:209-215`) are pure
functions of the chunk text and the chunk index.  No verified claim depends
on their value, so they are kept abstract as parameters `pageOf` (receiving
the chunk text and the chunk index) and `sectOf` (receiving the chunk text);
every theorem below quantifies over them. -/
abbrev PageHeuristic := Str → Nat → Int

/-- See `PageHeuristic`. -/
abbrev SectHeuristic := Str → Option Str

/-- The body of the `while` loop of `splitTextIntoChunks`
(`process-pdf/index.ts:187-231`), as a fuel-indexed recursion.

* `none` means the fuel ran out: the loop has not returned after that many
  iterations (so `∀ fuel, ... = none` states that the loop never returns).
* `some (Except.error ())` models the `TypeError` the source throws inside
  the sentence-boundary branch: `end` is declared `const` (line 193) and the
  branch assigns to it (line 204, `end = start + breakPoint + 1`), so
  entering the branch aborts the call before any chunk is pushed.
* `some (Except.ok chunks)` is a normal return.

The float comparison `breakPoint > start + chunkSize * 0.5` of line 202 is
encoded exactly over `Int` as `2 * breakPoint > 2 * start + chunkSize`. -/
def splitGo (pageOf : PageHeuristic) (sectOf : SectHeuristic)
    (text : Str) (chunkSize overlap : Nat) :
    Nat → Int → Nat → List JsChunk → Option (Except Unit (List JsChunk))
  | 0, _, _, _ => none
  | fuel + 1, start, chunkIndex, acc =>
    if start < (text.length : Int) then
      -- const end = Math.min(start + chunkSize, text.length)
      let e : Int := min (start + chunkSize) (text.length : Int)
      let chunkText := jsSlice text start e
      -- sentence-boundary branch (only when the window stops short of the end)
      if e < (text.length : Int) ∧
          2 * max (jsLastIndexOf '.' chunkText) (jsLastIndexOf '\n' chunkText) >
            2 * start + (chunkSize : Int) then
        -- `chunkText = chunkText.slice(0, breakPoint + 1)` runs, then
        -- `end = ...` throws TypeError (assignment to a const)
        some (Except.error ())
      else
        let c : JsChunk :=
          { content := jsTrim chunkText
            page := pageOf chunkText chunkIndex
            sect := sectOf chunkText }
        -- start = end - overlap
        let start' : Int := e - overlap
        -- if (start >= end) break
        if start' ≥ e then some (Except.ok (acc ++ [c]))
        else splitGo pageOf sectOf text chunkSize overlap fuel start' (chunkIndex + 1) (acc ++ [c])
    else
      some (Except.ok acc)

/-- `splitTextIntoChunks(text, chunkSize, overlap)` of
`process-pdf/index.ts:187-231`, with `fuel` bounding the number of loop
iterations (the source has no such bound; `none` for every fuel means the
source loops forever). -/
def splitTextIntoChunks (pageOf : PageHeuristic) (sectOf : SectHeuristic)
    (text : Str) (chunkSize overlap : Nat) (fuel : Nat) :
    Option (Except Unit (List JsChunk)) :=
  splitGo pageOf sectOf text chunkSize overlap fuel 0 0 []

/-! ## Store model (tables of migration 20250705131504, consumed as state) -/

/-- A row of `public.documents` (migration `20250705131504-...sql:5-17`).
Ids are opaque UUIDs in the store; they are modelled as `Nat`.
`document_type` and `file_size` are nullable columns. -/
structure DocumentRow where
  id : Nat
  user_id : Nat
  title : Str
  file_name : Str
  file_path : Str
  file_size : Option Int
  document_type : Option Str
  processing_status : Str
  total_chunks : Nat
  deriving Repr, DecidableEq

/-- A row of `public.document_chunks` (migration lines 20-29).  The embedding
vector is a fixed-dimension numeric vector; its numeric type plays no role in
any claim, so its entries are modelled as `Int`. -/
structure ChunkRow where
  id : Nat
  document_id : Nat
  chunk_index : Nat
  content : Str
  page_number : Int
  section_title : Option Str
  embedding : List Int
  deriving Repr, DecidableEq

/-- The relational store.  The deployed `process-pdf` function never reads the
blob storage (it builds its text from document metadata only), so the blob
store does not appear here; see the C4 theorem. -/
structure DB where
  documents : List DocumentRow
  document_chunks : List ChunkRow
  deriving Repr, DecidableEq

def pendingStr : Str := "pending".toList

def processingStr : Str := "processing".toList

def completedStr : Str := "completed".toList

def failedStr : Str := "failed".toList

/-- `.from('documents').select('*').eq('id', documentId).single()`.
Ids are a primary key, so at most one row matches; `none` models the
`docError` of a missing row. -/
def fetchDoc (db : DB) (docId : Nat) : Option DocumentRow :=
  db.documents.find? (fun d => d.id == docId)

/-- `.from('documents').update({ processing_status: st }).eq('id', documentId)`. -/
def updateStatus (db : DB) (docId : Nat) (st : Str) : DB :=
  { db with
    documents :=
      db.documents.map (fun d => if d.id == docId then { d with processing_status := st } else d) }

/-- `.update({ processing_status: 'completed', total_chunks: n }).eq('id', documentId)`. -/
def completeDoc (db : DB) (docId : Nat) (n : Nat) : DB :=
  { db with
    documents :=
      db.documents.map (fun d =>
        if d.id == docId then { d with processing_status := completedStr, total_chunks := n }
        else d) }

/-- `.from('document_chunks').insert({...})`; the store generates the row id
(`gen_random_uuid()`), modelled as the current table length. -/
def insertChunk (db : DB) (r : ChunkRow) : DB :=
  { db with document_chunks := db.document_chunks ++ [r] }

/-- The document's processing status as stored, if the document exists. -/
def statusOf (db : DB) (docId : Nat) : Option Str :=
  (fetchDoc db docId).map (fun d => d.processing_status)

/-! ## Ingestion handler (`supabase/functions/process-pdf/index.ts`, lines 14-185) -/

/-- Outcome of one embedding-provider call
(`fetch('https://api.openai.com/v1/embeddings')`, lines 82-106):

* `ok v` — a 2xx response whose JSON body carries the vector
  `data[0].embedding`;
* `malformed` — a 2xx response whose JSON body lacks `data`, `data[0]` or
  `data[0].embedding` (the guard of lines 102-104 then throws);
* `httpError status body` — a non-2xx response; the source reads
  `embeddingResponse.status` and `await embeddingResponse.text()` (the
  provider's response body) and throws with both (lines 94-98). -/
inductive EmbedResult where
  | ok (v : List Int)
  | malformed
  | httpError (status : Nat) (body : Str)
  deriving Repr, DecidableEq

/-- The embedding provider, called once per chunk with the chunk index and
the chunk content. -/
abbrev Embedder := Nat → Str → EmbedResult

def natStr (n : Nat) : Str := (toString n).toList

/-- The message of the error thrown at line 97:
`Failed to create embedding for chunk ${i}: ${embeddingResponse.status} ${errorText}`.
Note that it embeds the provider's error body text verbatim. -/
def embedFailMsg (i status : Nat) (errorText : Str) : Str :=
  "Failed to create embedding for chunk ".toList ++ natStr i ++ ": ".toList ++
    natStr status ++ " ".toList ++ errorText

/-- The message of the error thrown at line 103 on a malformed provider
response: `Invalid embedding response for chunk ${i}`. -/
def invalidEmbedMsg (i : Nat) : Str :=
  "Invalid embedding response for chunk ".toList ++ natStr i

/-- The message of the error thrown at line 122 when the chunk insert fails:
`Failed to store chunk ${i}: ${chunkError.message}`.  Note that it embeds
the store's error message verbatim. -/
def storeFailMsg (i : Nat) (m : Str) : Str :=
  "Failed to store chunk ".toList ++ natStr i ++ ": ".toList ++ m

/-- The store's verdict on one chunk insert
(`.from('document_chunks').insert({...})`, lines 109-118): `none` means the
row is stored, `some m` means the insert fails and `chunkError.message` is
`m` (lines 120-123 then throw `storeFailMsg`). -/
abbrev InsertOracle := ChunkRow → Option Str

/-- The per-chunk loop of lines 77-135: for each chunk, call the embedder —
a non-2xx response throws `embedFailMsg` (line 97), a malformed body throws
`invalidEmbedMsg` (line 103) — then insert the chunk row (document id,
running chunk index, content, page, section, vector); a failed insert throws
`storeFailMsg` (line 122).  Returns the store as of the throw (earlier
inserts persist; a failed insert stores nothing). -/
def ingestChunks (embed : Embedder) (insertErr : InsertOracle) (docId : Nat) :
    List JsChunk → Nat → DB → DB × Except Str Unit
  | [], _, db => (db, Except.ok ())
  | c :: rest, i, db =>
    match embed i c.content with
    | EmbedResult.httpError st t => (db, Except.error (embedFailMsg i st t))
    | EmbedResult.malformed => (db, Except.error (invalidEmbedMsg i))
    | EmbedResult.ok v =>
      let row : ChunkRow :=
        { id := db.document_chunks.length
          document_id := docId
          chunk_index := i
          content := c.content
          page_number := c.page
          section_title := c.sect
          embedding := v }
      match insertErr row with
      | some m => (db, Except.error (storeFailMsg i m))
      | none => ingestChunks embed insertErr docId rest (i + 1) (insertChunk db row)

/-- The handler's response: `{success: true, documentId, chunksProcessed}`
(the 100-character chunk previews of the success body are omitted), or the
500 response `{error: errMsg, success: false}` built in the catch block. -/
inductive PdfOutcome where
  | success (chunksProcessed : Nat)
  | failure (errMsg : Str)
  deriving Repr, DecidableEq

/-- Lines 77-156 plus the catch of lines 158-184, applied once a chunk list
exists: run the loop; on success mark the document completed with the final
chunk count, on a thrown error mark it failed and answer 500 with the thrown
message. -/
def ingestAndComplete (embed : Embedder) (insertErr : InsertOracle) (docId : Nat)
    (chunks : List JsChunk) (db : DB) : DB × PdfOutcome :=
  match ingestChunks embed insertErr docId chunks 0 db with
  | (db1, Except.ok ()) => (completeDoc db1 docId chunks.length, PdfOutcome.success chunks.length)
  | (db1, Except.error m) => (updateStatus db1 docId failedStr, PdfOutcome.failure m)

/-- The message of the `TypeError` thrown when the sentence-boundary branch
of `splitTextIntoChunks` assigns to the `const end`. -/
def constAssignMsg : Str := "Assignment to constant variable.".toList

/-- The message of the error thrown at line 50 when the document fetch
fails: `Failed to fetch document: ${docError.message}` — it embeds the
store's error message (`m`, e.g. the PostgREST text for a `.single()` with
no row) verbatim. -/
def fetchFailMsgOf (m : Str) : Str := "Failed to fetch document: ".toList ++ m

def missingIdMsg : Str := "Document ID is required".toList

/-- `extractedText` of lines 63-66: a fixed template over the document's
title, type and file name (`document.document_type || '...'` is JavaScript
`||`, for which an absent and an empty string both select the default). -/
def jsOrElse (o : Option Str) (dflt : Str) : Str :=
  match o with
  | none => dflt
  | some t => if t = [] then dflt else t

/-- See `jsOrElse`; the template of lines 63-66. -/
def extractedTextOf (d : DocumentRow) : Str :=
  "Document: ".toList ++ d.title ++
    "\nType: ".toList ++ jsOrElse d.document_type "Aviation Manual".toList ++
    "\nFilename: ".toList ++ d.file_name ++
    "\nDescription: This is a ".toList ++ jsOrElse d.document_type "aviation".toList ++
    " document that has been uploaded and processed for search and reference.".toList

/-- Lines 59-156 after a successful document fetch (the `processing` update
has already been applied to `db`): build the template text, chunk it, then
embed and persist.  The second component is `none` when the handler never
returns (the chunker loops forever, i.e. runs out of every fuel); the store
component then holds the writes made before the hang. -/
def processAfterFetch (embed : Embedder) (insertErr : InsertOracle)
    (pageOf : PageHeuristic) (sectOf : SectHeuristic)
    (fuel : Nat) (db : DB) (docId : Nat) (doc : DocumentRow) : DB × Option PdfOutcome :=
  match splitTextIntoChunks pageOf sectOf (extractedTextOf doc) 1000 200 fuel with
  | none => (db, none)
  | some (Except.error ()) =>
    (updateStatus db docId failedStr, some (PdfOutcome.failure constAssignMsg))
  | some (Except.ok chunks) =>
    let r := ingestAndComplete embed insertErr docId chunks db
    (r.1, some r.2)

/-- The `serve` handler of `process-pdf/index.ts:14-185` (deployed copy).

* `body` is the outcome of `await req.json()` (line 30) plus the
  `documentId` extraction: `Except.error m` is an unparsable body — the
  `SyntaxError`'s own message `m` becomes the 500 error text, with
  `documentId` still null so no status update happens; `Except.ok none` is a
  parsed body without a (truthy) `documentId` (line 33-35 throw);
  `Except.ok (some docId)` is a well-formed request.
* `docErrMsg` is the store's error message when the document fetch fails
  (`docError.message`, embedded verbatim at line 50).

Environment-variable validation (lines 23-28) is assumed configured; the
CORS pre-flight branch returns no data and is not modelled.  The single
catch block of lines 158-184 is distributed over the error cases: each
throwing site maps to a `failure` response carrying the thrown message, with
the best-effort `failed` status update applied first (a no-op when the
document does not exist). -/
def processPdfServe (embed : Embedder) (insertErr : InsertOracle)
    (pageOf : PageHeuristic) (sectOf : SectHeuristic) (docErrMsg : Str)
    (fuel : Nat) (db : DB) (body : Except Str (Option Nat)) : DB × Option PdfOutcome :=
  match body with
  | Except.error m => (db, some (PdfOutcome.failure m))
  | Except.ok none => (db, some (PdfOutcome.failure missingIdMsg))
  | Except.ok (some docId) =>
    match fetchDoc db docId with
    | none =>
      (updateStatus db docId failedStr, some (PdfOutcome.failure (fetchFailMsgOf docErrMsg)))
    | some doc =>
      processAfterFetch embed insertErr pageOf sectOf fuel
        (updateStatus db docId processingStr) docId doc

/-! ## Retrieval handler (`supabase/functions/search-documents/index.ts`, lines 14-173) -/

/-- The parsed JSON body `{ query, limit = 5, documentTypes }`.  `limit`
defaults to 5 only when absent (JavaScript default-value destructuring);
`query` is checked with JavaScript truthiness, for which the empty string is
falsy. -/
structure SearchRequest where
  query : Option Str
  limit : Option Nat
  documentTypes : Option (List Str)
  deriving Repr, DecidableEq

/-- A result item, the shape shared by the primary and the fallback path:
chunk columns joined to the parent document's title/type/file name plus a
similarity score (a float in the source, modelled over `ℚ`). -/
structure ResultRow where
  id : Nat
  content : Str
  page_number : Int
  section_title : Option Str
  document_title : Str
  document_type : Option Str
  file_name : Str
  similarity : ℚ
  deriving Repr, DecidableEq

/-- The handler's response: the 200 body `{results, query, total}` or the
500 body `{error}`. -/
inductive SearchResponse where
  | ok (results : List ResultRow) (query : Str) (total : Nat)
  | err (msg : Str)
  deriving Repr, DecidableEq

/-- The conditional category filter of lines 117-119:
`if (documentTypes && documentTypes.length > 0) fallbackQuery.in('documents.document_type', documentTypes)`.
An absent or empty list disables the filter; a document with a null type is
in no list. -/
def matchesTypes (types : Option (List Str)) (d : DocumentRow) : Bool :=
  match types with
  | none => true
  | some ts =>
    if ts.isEmpty then true
    else match d.document_type with
      | some t => ts.contains t
      | none => false

/-- The fallback query of lines 104-121: chunks inner-joined to their
document, full-text matched on `content` against the query (`.textSearch`,
kept abstract as the store oracle `textMatch`), document status equal to
`completed`, and the conditional category filter; the store applies `limit`
after all filters (the `.take` happens at the call site). -/
def fallbackRows (textMatch : Str → Str → Bool) (db : DB) (q : Str)
    (types : Option (List Str)) : List (ChunkRow × DocumentRow) :=
  db.document_chunks.filterMap (fun ch =>
    match db.documents.find? (fun d => d.id == ch.document_id) with
    | none => none
    | some d =>
      if textMatch ch.content q && d.processing_status == completedStr && matchesTypes types d
      then some (ch, d) else none)

/-- Lines 127-136: shape a fallback row, with the fixed nominal similarity
`0.5` (`// Default similarity for text search`). -/
def formatFallback (p : ChunkRow × DocumentRow) : ResultRow :=
  { id := p.1.id
    content := p.1.content
    page_number := p.1.page_number
    section_title := p.1.section_title
    document_title := p.2.title
    document_type := p.2.document_type
    file_name := p.2.file_name
    similarity := 1 / 2 }

/-- Modelled from the spec: the store function `search_similar_chunks`
invoked by `.rpc(...)` at lines 91-97 is defined by no migration under
`src/` (the fallback path exists precisely because it may be absent), so
the primary ranking path is modelled from spec §4.4: rank all chunks
belonging to documents with status `completed`, optionally restricted to the
allowed categories, by ascending vector distance (`dist`, the store's
distance oracle), returning the first `limit`; ranking is stable, so equal
distances keep insertion order.  The spec assigns no role to the threshold
argument the caller passes, so it is unused. -/
def search_similar_chunks (dist : List Int → List Int → ℚ) (db : DB) (emb : List Int)
    (threshold : ℚ) (count : Nat) (types : Option (List Str)) : List ResultRow :=
  let _ := threshold
  let cands := db.document_chunks.filterMap (fun ch =>
    match db.documents.find? (fun d => d.id == ch.document_id) with
    | none => none
    | some d =>
      if d.processing_status == completedStr && matchesTypes types d then some (ch, d) else none)
  let sorted := cands.mergeSort (fun a b => dist a.1.embedding emb ≤ dist b.1.embedding emb)
  (sorted.take count).map (fun p =>
    { id := p.1.id
      content := p.1.content
      page_number := p.1.page_number
      section_title := p.1.section_title
      document_title := p.2.title
      document_type := p.2.document_type
      file_name := p.2.file_name
      similarity := dist p.1.embedding emb })

/-- The marker of line 100: `searchError.message.includes('function search_similar_chunks')`. -/
def rpcMissingMarker : Str := "function search_similar_chunks".toList

def searchQueryRequiredMsg : Str := "Search query is required".toList

def embedSearchFailMsg : Str := "Failed to create search embedding".toList

/-- The `serve` handler of `search-documents/index.ts:14-173`.

* `embedQ` is the embedding provider for the query (its failure throws the
  generic message of line 54, with no provider text).
* `dist` is the store's vector-distance oracle, `textMatch` its full-text
  match oracle.
* `rpcErr` is the outcome of the `.rpc('search_similar_chunks', ...)` call:
  `some m` is a store error with message `m` (the fallback runs exactly when
  `m` contains the marker), `none` means the function exists and the
  spec-modelled `search_similar_chunks` answers.

The CORS pre-flight branch returns no data and is not modelled; the built
but never executed `sqlQuery` string of lines 61-88 is dead code.  The
fallback query itself cannot fail against the pure store, so the
`fallbackError` throw of lines 123-125 never fires here. -/
def searchDocumentsServe (embedQ : Str → Except Unit (List Int))
    (dist : List Int → List Int → ℚ) (textMatch : Str → Str → Bool)
    (rpcErr : Option Str) (db : DB) (req : SearchRequest) : SearchResponse :=
  match req.query with
  | none => SearchResponse.err searchQueryRequiredMsg
  | some q =>
    if q = [] then SearchResponse.err searchQueryRequiredMsg
    else
      let lim := req.limit.getD 5
      match embedQ q with
      | Except.error () => SearchResponse.err embedSearchFailMsg
      | Except.ok emb =>
        match rpcErr with
        | some m =>
          if rpcMissingMarker <:+: m then
            let results := ((fallbackRows textMatch db q req.documentTypes).take lim).map formatFallback
            SearchResponse.ok results q results.length
          else
            SearchResponse.err ("Search failed: ".toList ++ m)
        | none =>
          let results := search_similar_chunks dist db emb (4 / 5) lim req.documentTypes
          SearchResponse.ok results q results.length

/-! ## Extraction handler (`api/pdf-extract.ts`, lines 40-236, deployed copy) -/

/-- A per-page record of the extraction pipeline (`PDFPageContent` of
`pdf-extract.ts:17-22`).  `textDensity` is a float in the source, modelled
over `ℚ`. -/
structure PDFPageContent where
  pageNumber : Nat
  text : Str
  textDensity : ℚ
  needsOCR : Bool
  deriving Repr, DecidableEq

/-- What the PDF engine (pdfjs) yields for one page: the page's text items
joined with single spaces (line 106-108 before the `.trim()`), and the
page's viewport area `viewport.width * viewport.height` at scale 1.0. -/
structure EnginePage where
  rawText : Str
  area : ℚ
  deriving Repr, DecidableEq

/-- What the PDF engine yields for a document: page count, per-page data and
the `info.Title` metadata (the only metadata field a modelled branch reads). -/
structure PdfEngineDoc where
  numPages : Nat
  pages : List EnginePage
  title : Option Str
  deriving Repr, DecidableEq

/-- Stage 2 (lines 101-128): trim each page's joined text, compute
`textDensity = pageText.length / (pageArea / 10000)` and
`needsOCR = textDensity < 0.5 && pageText.length < 50`; pages are numbered
from 1 in order. -/
def buildPageContents (pages : List EnginePage) : List PDFPageContent :=
  pages.enum.map (fun pr =>
    let t := jsTrim pr.2.rawText
    { pageNumber := pr.1 + 1
      text := t
      textDensity := (t.length : ℚ) * 10000 / pr.2.area
      needsOCR := decide ((t.length : ℚ) * 10000 / pr.2.area < 1 / 2) && decide (t.length < 50) })

/-- The OCR engine: page number to recognized text.  `Except.error ()`
covers every per-page failure, including the 15-second timeout of lines
161-166 (both reject the race and land in the per-page catch). -/
abbrev OcrEngine := Nat → Except Unit Str

/-- Lines 140-177, one page: run OCR; on failure keep the page unchanged
(per-page catch, line 174-177); on success replace the page's text with the
trimmed recognition output only if it is strictly longer than the current
text (`text.trim().length > pageContent.text.length`), recomputing the
density against the scale-1.5 render area (`areaAt`, already divided by
10000 in the source formula, modelled as the raw area as in stage 2). -/
def tryOcrUpdate (ocr : OcrEngine) (areaAt : Nat → ℚ) (p : PDFPageContent) : PDFPageContent :=
  match ocr p.pageNumber with
  | Except.error () => p
  | Except.ok t =>
    let t' := jsTrim t
    if p.text.length < t'.length then
      { p with text := t', textDensity := (t'.length : ℚ) * 10000 / areaAt p.pageNumber }
    else p

/-- Stage 3 (lines 130-184): collect the flagged pages; only when there is
at least one and at most three of them (`ocrPages.length > 0 &&
ocrPages.length <= 3`) and the OCR worker starts (`workerOk`; its failure is
caught at lines 181-183) are the first three flagged pages processed
(`ocrPages.slice(0, 3)`); the source mutates the shared page objects, so the
result keeps every page in place, updated when its page number is among the
processed ones. -/
def ocrStage (ocr : OcrEngine) (areaAt : Nat → ℚ) (workerOk : Bool)
    (pages : List PDFPageContent) : List PDFPageContent :=
  let ocrPages := pages.filter (fun p => p.needsOCR)
  if 0 < ocrPages.length ∧ ocrPages.length ≤ 3 then
    if workerOk then
      let processedNums := (ocrPages.take 3).map (fun p => p.pageNumber)
      pages.map (fun p =>
        if processedNums.contains p.pageNumber then tryOcrUpdate ocr areaAt p else p)
    else pages
  else pages

/-- Stage 4 (lines 187-190): drop empty page texts and join with blank
lines. -/
def finalTextOf (pages : List PDFPageContent) : Str :=
  List.intercalate "\n\n".toList ((pages.map (fun p => p.text)).filter (fun t => 0 < t.length))

/-- Lines 192-194 (computed over the stage-2 flags, which stage 3 never
changes). -/
def processingMethodOf (pages : List PDFPageContent) : Str :=
  if 0 < (pages.filter (fun p => p.needsOCR)).length then
    (if pages.any (fun p => !p.needsOCR) then "hybrid".toList else "ocr".toList)
  else "text-extraction".toList

/-- Line 201: `info.Title || uploadedFile.originalFilename || 'Untitled Document'`. -/
def extractTitle (infoTitle origName : Option Str) : Str :=
  jsOrElse infoTitle (jsOrElse origName "Untitled Document".toList)

/-- Lines 214-216: the synthetic placeholder when no text was extracted. -/
def placeholderText (pages : Nat) (title : Str) : Str :=
  "This document contains ".toList ++ natStr pages ++ " page(s). Title: ".toList ++ title ++
    ". The content may require specialized processing or contains primarily non-text elements.".toList

/-- The request, as the handler sees it after formidable parsing: the HTTP
method and, when a file field parsed, its original name and bytes (`none`
covers both a missing `files.file` and a missing `filepath`, the two 400
branches of lines 65-73). -/
structure ExtractRequest where
  method : Str
  file : Option (Option Str × List Nat)
  deriving Repr, DecidableEq

/-- The handler's responses: 200 on pre-flight, 405, 400 with a message,
200 with `{success: true, content, metadata: {pages, processingMethod, ...}}`
(content, method and page count modelled), or the 500 body
`{error: 'PDF processing failed', details: error.message, timestamp}` of
lines 230-234 (the timestamp is wall-clock and not modelled). -/
inductive ExtractResponse where
  | preflight
  | methodNotAllowed
  | badRequest (msg : Str)
  | okResp (content : Str) (method : Str) (pages : Nat)
  | serverError (error details : Str)
  deriving Repr, DecidableEq

/-- The default-exported `handler` of `api/pdf-extract.ts:40-236` (deployed
copy).  `engine` is the PDF engine oracle (pdfjs `getDocument` + per-page
text extraction + metadata, all engine work of stages 1-2; an engine error
carries the engine's own error message and lands in the catch of lines
227-235).  `ocr`, `areaAt`, `workerOk` parametrise stage 3. -/
def pdfExtractHandler (engine : List Nat → Except Str PdfEngineDoc) (ocr : OcrEngine)
    (areaAt : Nat → ℚ) (workerOk : Bool) (req : ExtractRequest) : ExtractResponse :=
  if req.method = "OPTIONS".toList then ExtractResponse.preflight
  else if req.method ≠ "POST".toList then ExtractResponse.methodNotAllowed
  else
    match req.file with
    | none => ExtractResponse.badRequest "No file uploaded".toList
    | some fileField =>
      if fileField.2.length = 0 then ExtractResponse.badRequest "Empty file uploaded".toList
      else
        match engine fileField.2 with
        | Except.error m => ExtractResponse.serverError "PDF processing failed".toList m
        | Except.ok doc =>
          let pages0 := buildPageContents doc.pages
          let pages1 := ocrStage ocr areaAt workerOk pages0
          let finalText := finalTextOf pages1
          let content :=
            if jsTrim finalText = [] ∧ 0 < doc.numPages then
              placeholderText doc.numPages (extractTitle doc.title fileField.1)
            else finalText
          ExtractResponse.okResp content (processingMethodOf pages0) doc.numPages

/-! ## Concrete oracles and fixtures used by witnesses and counterexamples -/

/-- A concrete instance of the page heuristic (the claims below hold for
every heuristic; a fixed one is needed for closed statements). -/
def pgZero : PageHeuristic := fun _ _ => 0

/-- A concrete instance of the section heuristic. -/
def scNone : SectHeuristic := fun _ => none

/-! ## C1: termination of the chunker -/

/-- The 21-character text the spec's retrieval scenario uses; any nonempty
text exhibits the same behavior at the deployed parameters. -/
def chunkerFailingInput : Str := "engine fire procedure".toList

/-- Once the window reaches the end of `chunkerFailingInput` the loop state
repeats forever: with `chunkSize = 1000`, `overlap = 200` the next start is
`21 - 200 = -179` at every subsequent iteration, and the defensive break
`start >= end` (which only fires when `overlap = 0`) never triggers. -/
theorem splitGo_stuck_c1 (pageOf : PageHeuristic) (sectOf : SectHeuristic) :
    ∀ (fuel chunkIndex : Nat) (acc : List JsChunk),
      splitGo pageOf sectOf chunkerFailingInput 1000 200 fuel (-179) chunkIndex acc = none := by
  intro fuel
  induction fuel with
  | zero => intro chunkIndex acc; rfl
  | succ f ih =>
    intro chunkIndex acc
    have step : splitGo pageOf sectOf chunkerFailingInput 1000 200 (f + 1) (-179) chunkIndex acc =
        splitGo pageOf sectOf chunkerFailingInput 1000 200 f (-179) (chunkIndex + 1)
          (acc ++ [{ content := jsTrim (jsSlice chunkerFailingInput (-179) 21)
                     page := pageOf (jsSlice chunkerFailingInput (-179) 21) chunkIndex
                     sect := sectOf (jsSlice chunkerFailingInput (-179) 21) }]) := rfl
    rw [step]
    exact ih (chunkIndex + 1) _

/-- C1: refuted (code bug).  The claim states that `splitTextIntoChunks`
terminates for every text and every `chunkSize > overlap >= 0` because each
iteration makes progress and the defensive break catches the rest.  In the
source the break is `if (start >= end) break` with `start = end - overlap`,
which can only fire when `overlap = 0`; at the deployed parameters
`(1000, 200)` the loop never returns on any nonempty text.  This theorem
evaluates the code at a failing input: on the 21-character text
`"engine fire procedure"` the loop is still running after every fuel bound,
for every page/section heuristic. -/
theorem splitTextIntoChunks_never_terminates :
    ∀ (pageOf : PageHeuristic) (sectOf : SectHeuristic) (fuel : Nat),
      splitTextIntoChunks pageOf sectOf chunkerFailingInput 1000 200 fuel = none := by
  intro pageOf sectOf fuel
  match fuel with
  | 0 => rfl
  | f + 1 =>
    have step : splitTextIntoChunks pageOf sectOf chunkerFailingInput 1000 200 (f + 1) =
        splitGo pageOf sectOf chunkerFailingInput 1000 200 f (-179) 1
          [{ content := jsTrim (jsSlice chunkerFailingInput 0 21)
             page := pageOf (jsSlice chunkerFailingInput 0 21) 0
             sect := sectOf (jsSlice chunkerFailingInput 0 21) }] := rfl
    rw [step]
    exact splitGo_stuck_c1 pageOf sectOf f 1 _

/-! ## C10: chunk content bounds -/

theorem jsTrim_length_le (s : Str) : (jsTrim s).length ≤ s.length := by
  unfold jsTrim
  calc ((s.dropWhile Char.isWhitespace).reverse.dropWhile Char.isWhitespace).reverse.length
      = ((s.dropWhile Char.isWhitespace).reverse.dropWhile Char.isWhitespace).length := by
        rw [List.length_reverse]
    _ ≤ (s.dropWhile Char.isWhitespace).reverse.length :=
        (List.dropWhile_sublist Char.isWhitespace).length_le
    _ = (s.dropWhile Char.isWhitespace).length := by rw [List.length_reverse]
    _ ≤ s.length := (List.dropWhile_sublist Char.isWhitespace).length_le

/-- Length of the window `text.slice(start, min(start + chunkSize, len))`:
at most `chunkSize`, provided `overlap < chunkSize` and the running start
never drops below `-overlap` (the loop invariant). -/
theorem window_length_le (s : Str) (start : Int) (chunkSize overlap : Nat)
    (hov : overlap < chunkSize) (hst : -(overlap : Int) ≤ start) :
    (jsSlice s start (min (start + chunkSize) (s.length : Int))).length ≤ chunkSize := by
  unfold jsSlice jsSliceIdx
  simp only [List.length_drop, List.length_take]
  split_ifs <;> omega

theorem splitGo_content_le (pageOf : PageHeuristic) (sectOf : SectHeuristic)
    (text : Str) (chunkSize overlap : Nat) (hov : overlap < chunkSize) :
    ∀ (fuel : Nat) (start : Int) (chunkIndex : Nat) (acc l : List JsChunk),
      -(overlap : Int) ≤ start →
      (∀ c ∈ acc, c.content.length ≤ chunkSize) →
      splitGo pageOf sectOf text chunkSize overlap fuel start chunkIndex acc =
        some (Except.ok l) →
      ∀ c ∈ l, c.content.length ≤ chunkSize := by
  intro fuel
  induction fuel with
  | zero => intro start chunkIndex acc l _ _ h; exact absurd h (by simp [splitGo])
  | succ f ih =>
    intro start chunkIndex acc l hst hacc h
    rw [splitGo] at h
    by_cases hlt : start < (text.length : Int)
    · rw [if_pos hlt] at h
      by_cases hthrow : min (start + chunkSize) (text.length : Int) < (text.length : Int) ∧
          2 * max (jsLastIndexOf '.' (jsSlice text start (min (start + chunkSize) (text.length : Int))))
              (jsLastIndexOf '\n' (jsSlice text start (min (start + chunkSize) (text.length : Int)))) >
            2 * start + (chunkSize : Int)
      · rw [if_pos hthrow] at h
        exact absurd h (by simp)
      · rw [if_neg hthrow] at h
        have hc : (jsTrim (jsSlice text start (min (start + chunkSize) (text.length : Int)))).length ≤
            chunkSize :=
          le_trans (jsTrim_length_le _) (window_length_le text start chunkSize overlap hov hst)
        have hacc' : ∀ c ∈ acc ++
            [{ content := jsTrim (jsSlice text start (min (start + chunkSize) (text.length : Int)))
               page := pageOf (jsSlice text start (min (start + chunkSize) (text.length : Int))) chunkIndex
               sect := sectOf (jsSlice text start (min (start + chunkSize) (text.length : Int))) }],
            c.content.length ≤ chunkSize := by
          intro c hcm
          rcases List.mem_append.1 hcm with hm | hm
          · exact hacc c hm
          · rcases List.mem_singleton.1 hm with rfl
            exact hc
        by_cases hbk : min (start + chunkSize) (text.length : Int) - overlap ≥
            min (start + chunkSize) (text.length : Int)
        · rw [if_pos hbk] at h
          have heq : acc ++
              [{ content := jsTrim (jsSlice text start (min (start + chunkSize) (text.length : Int)))
                 page := pageOf (jsSlice text start (min (start + chunkSize) (text.length : Int))) chunkIndex
                 sect := sectOf (jsSlice text start (min (start + chunkSize) (text.length : Int))) }] = l := by
            simpa using h
          exact fun c hcm => hacc' c (heq ▸ hcm)
        · rw [if_neg hbk] at h
          have hst' : -(overlap : Int) ≤ min (start + chunkSize) (text.length : Int) - overlap := by
            have h1 : (0 : Int) ≤ min (start + chunkSize) (text.length : Int) := by
              have : (0 : Int) < start + chunkSize := by omega
              have h2 : (0 : Int) ≤ (text.length : Int) := by positivity
              omega
            omega
          exact ih _ (chunkIndex + 1) _ l hst' hacc' h
    · rw [if_neg hlt] at h
      have heq : acc = l := by simpa using h
      exact fun c hcm => hacc c (heq ▸ hcm)

/-- C10 amended: every chunk the chunker returns has content of at most
`chunkSize` characters (sentence-boundary trimming, the slice bounds and
`trim()` only shorten the window).  The non-emptiness half of the original
claim is false — see the counterexample `splitTextIntoChunks_empty_content_cex`:
a whitespace-only window is trimmed to the empty string. -/
theorem splitTextIntoChunks_content_bounded (pageOf : PageHeuristic) (sectOf : SectHeuristic)
    (text : Str) (chunkSize overlap fuel : Nat) (l : List JsChunk)
    (hov : overlap < chunkSize)
    (h : splitTextIntoChunks pageOf sectOf text chunkSize overlap fuel = some (Except.ok l)) :
    ∀ c ∈ l, c.content.length ≤ chunkSize := by
  refine splitGo_content_le pageOf sectOf text chunkSize overlap hov fuel 0 0 [] l ?_ ?_ h
  · omega
  · intro c hc
    exact absurd hc (List.not_mem_nil c)

/-- C10 witness: on the text `"ab"` with `chunkSize = 2`, `overlap = 0` the
chunker returns one chunk, whose content has at most 2 characters. -/
theorem splitTextIntoChunks_content_bounded_witness :
    (JsChunk.mk "ab".toList (pgZero "ab".toList 0) (scNone "ab".toList)).content.length ≤ 2 :=
  splitTextIntoChunks_content_bounded pgZero scNone "ab".toList 2 0 5
    [JsChunk.mk "ab".toList (pgZero "ab".toList 0) (scNone "ab".toList)]
    (by decide) rfl
    (JsChunk.mk "ab".toList (pgZero "ab".toList 0) (scNone "ab".toList)) (by simp)

/-- C10 counterexample: the claim also asserts every chunk content is
non-empty; on the one-character whitespace text `" "` (valid parameters
`chunkSize = 2 > overlap = 0`) the chunker terminates and returns exactly one
chunk whose content is the empty string (`" ".trim()`), which a
`content TEXT NOT NULL` column would store as an empty, not absent, value —
the non-empty half of the invariant fails. -/
theorem splitTextIntoChunks_empty_content_cex :
    splitTextIntoChunks pgZero scNone " ".toList 2 0 5 =
      some (Except.ok [JsChunk.mk [] 0 none]) := rfl

/-! ## C2: no status guard before (re)starting ingestion -/

/-- An embedder that always succeeds with an empty vector (for closed
statements). -/
def embedZero : Embedder := fun _ _ => EmbedResult.ok []

/-- A store that accepts every chunk insert (for closed statements). -/
def insertOk : InsertOracle := fun _ => none

/-- A document record already in the terminal `completed` status. -/
def docC2 : DocumentRow :=
  { id := 1
    user_id := 7
    title := "T".toList
    file_name := "t.pdf".toList
    file_path := "u7/t.pdf".toList
    file_size := some 4096
    document_type := some "QRH".toList
    processing_status := completedStr
    total_chunks := 3 }

def dbC2 : DB := { documents := [docC2], document_chunks := [] }

theorem fetchDoc_updateStatus (db : DB) (docId : Nat) (s : Str) (doc : DocumentRow)
    (h : fetchDoc db docId = some doc) :
    fetchDoc (updateStatus db docId s) docId = some { doc with processing_status := s } := by
  unfold fetchDoc updateStatus at *
  rw [List.find?_map]
  have hp : ((fun d : DocumentRow => d.id == docId) ∘
      (fun d : DocumentRow => if d.id == docId then { d with processing_status := s } else d)) =
      (fun d : DocumentRow => d.id == docId) := by
    funext d
    by_cases hd : d.id = docId <;> simp [hd]
  rw [hp, h]
  have hid : doc.id = docId := by
    have h2 := List.find?_some h
    simpa using h2
  simp [hid]

theorem updateStatus_updateStatus (db : DB) (docId : Nat) (s1 s2 : Str) :
    updateStatus (updateStatus db docId s1) docId s2 = updateStatus db docId s2 := by
  unfold updateStatus
  simp only [List.map_map]
  congr 1
  have hfun : ((fun d : DocumentRow => if d.id == docId then { d with processing_status := s2 } else d) ∘
      (fun d : DocumentRow => if d.id == docId then { d with processing_status := s1 } else d)) =
      (fun d : DocumentRow => if d.id == docId then { d with processing_status := s2 } else d) := by
    funext d
    by_cases hd : d.id = docId <;> simp [hd]
  rw [hfun]

set_option maxRecDepth 4000

/-- C2 counterexample: a Document already in the terminal `completed` status
is not ineligible: the ingestion handler performs no status check and
unconditionally persists `processing` before any chunk work, so running it
on a store whose only document is `completed` re-enters that document into
`processing` (the second component is `none` because the run then hangs in
the chunker, see C1). -/
theorem processPdf_no_status_guard_cex :
    processPdfServe embedZero insertOk pgZero scNone [] 1 dbC2 (Except.ok (some 1)) =
      ({ documents := [{ docC2 with processing_status := processingStr }], document_chunks := [] },
        none) := by
  decide

/-- C2 amended: the handler persists the `processing` transition before any
chunk work begins (second conjunct: with zero loop iterations executed the
store already holds `processing`), but it never reads the current status:
its entire behavior is invariant under the document's initial
`processing_status` (first conjunct), so a document in `processing`,
`completed` or `failed` is re-entered rather than treated as ineligible, and
the update is a plain overwrite, not an atomic pending-conditioned
transition. -/
theorem processPdfServe_ignores_status (embed : Embedder) (insertErr : InsertOracle)
    (pageOf : PageHeuristic) (sectOf : SectHeuristic) (docErrMsg : Str)
    (fuel : Nat) (db : DB) (docId : Nat) (doc : DocumentRow)
    (s : Str) (h : fetchDoc db docId = some doc) :
    processPdfServe embed insertErr pageOf sectOf docErrMsg fuel (updateStatus db docId s)
        (Except.ok (some docId)) =
      processPdfServe embed insertErr pageOf sectOf docErrMsg fuel db (Except.ok (some docId)) ∧
    processPdfServe embed insertErr pageOf sectOf docErrMsg 0 db (Except.ok (some docId)) =
      (updateStatus db docId processingStr, none) := by
  constructor
  · simp only [processPdfServe]
    rw [fetchDoc_updateStatus db docId s doc h, h]
    show processAfterFetch embed insertErr pageOf sectOf fuel
        (updateStatus (updateStatus db docId s) docId processingStr) docId
        { doc with processing_status := s } =
      processAfterFetch embed insertErr pageOf sectOf fuel
        (updateStatus db docId processingStr) docId doc
    rw [updateStatus_updateStatus]
    rfl
  · simp only [processPdfServe]
    rw [h]
    show processAfterFetch embed insertErr pageOf sectOf 0
        (updateStatus db docId processingStr) docId doc =
      (updateStatus db docId processingStr, none)
    rfl

/-- C2 witness for `processPdfServe_ignores_status`, at a store whose
document is `pending` and with the terminal status `completed` written over
it. -/
theorem processPdfServe_ignores_status_witness :
    processPdfServe embedZero insertOk pgZero scNone [] 1 (updateStatus dbC2 1 pendingStr)
        (Except.ok (some 1)) =
      processPdfServe embedZero insertOk pgZero scNone [] 1 dbC2 (Except.ok (some 1)) ∧
    processPdfServe embedZero insertOk pgZero scNone [] 0 dbC2 (Except.ok (some 1)) =
      (updateStatus dbC2 1 processingStr, none) :=
  processPdfServe_ignores_status embedZero insertOk pgZero scNone [] 1 dbC2 1 docC2
    pendingStr rfl

/-! ## C3: any embedding failure aborts the run with no partial success -/

/-- Running the chunk loop when the store accepts every insert, the embedder
succeeds on the first `k` calls and the provider rejects call `k` (0-based):
the loop inserts exactly the rows for the first `k` chunks (with consecutive
indices starting at `i0`) and throws the embedding-failure message of call
`i0 + k`. -/
theorem ingestChunks_fail_spec (embed : Embedder) (insertErr : InsertOracle) (docId : Nat)
    (vs : Nat → List Int) (hins : ∀ r, insertErr r = none) :
    ∀ (cs : List JsChunk) (k i0 : Nat) (db : DB) (st : Nat) (t : Str)
      (hk : k < cs.length),
      embed (i0 + k) ((cs.get ⟨k, hk⟩).content) = EmbedResult.httpError st t →
      (∀ j (hj : j < k), embed (i0 + j) ((cs.get ⟨j, hj.trans hk⟩).content) =
        EmbedResult.ok (vs (i0 + j))) →
      ∃ rows : List ChunkRow,
        ingestChunks embed insertErr docId cs i0 db =
          ({ db with document_chunks := db.document_chunks ++ rows },
            Except.error (embedFailMsg (i0 + k) st t)) ∧
        rows.map (fun r => r.chunk_index) = (List.range k).map (fun j => i0 + j) ∧
        ∀ r ∈ rows, r.document_id = docId := by
  intro cs
  induction cs with
  | nil => intro k i0 db st t hk; exact absurd hk (by simp)
  | cons c rest ih =>
    intro k i0 db st t hk hfail hok
    match k with
    | 0 =>
      refine ⟨[], ?_, by simp, by simp⟩
      have hf : embed i0 c.content = EmbedResult.httpError st t := by simpa using hfail
      simp [ingestChunks, hf]
    | k' + 1 =>
      have h0 : embed i0 c.content = EmbedResult.ok (vs i0) := by
        have := hok 0 (Nat.succ_pos k')
        simpa using this
      have hk' : k' < rest.length := by simpa using Nat.lt_of_succ_lt_succ hk
      have hfail' : embed ((i0 + 1) + k') ((rest.get ⟨k', hk'⟩).content) =
          EmbedResult.httpError st t := by
        have harith : (i0 + 1) + k' = i0 + (k' + 1) := by omega
        rw [harith]
        simpa using hfail
      have hok' : ∀ j (hj : j < k'), embed ((i0 + 1) + j) ((rest.get ⟨j, hj.trans hk'⟩).content) =
          EmbedResult.ok (vs ((i0 + 1) + j)) := by
        intro j hj
        have harith : (i0 + 1) + j = i0 + (j + 1) := by omega
        rw [harith]
        have := hok (j + 1) (by omega)
        simpa using this
      obtain ⟨rows', heq, hidx, hdid⟩ :=
        ih k' (i0 + 1)
          (insertChunk db
            { id := db.document_chunks.length
              document_id := docId
              chunk_index := i0
              content := c.content
              page_number := c.page
              section_title := c.sect
              embedding := vs i0 })
          st t hk' hfail' hok'
      refine ⟨{ id := db.document_chunks.length
                document_id := docId
                chunk_index := i0
                content := c.content
                page_number := c.page
                section_title := c.sect
                embedding := vs i0 } :: rows', ?_, ?_, ?_⟩
      · have hstep : ingestChunks embed insertErr docId (c :: rest) i0 db =
            ingestChunks embed insertErr docId rest (i0 + 1)
              (insertChunk db
                { id := db.document_chunks.length
                  document_id := docId
                  chunk_index := i0
                  content := c.content
                  page_number := c.page
                  section_title := c.sect
                  embedding := vs i0 }) := by
          simp [ingestChunks, h0, hins]
        rw [hstep, heq]
        have harith : (i0 + 1) + k' = i0 + (k' + 1) := by omega
        rw [harith]
        simp [insertChunk]
      · simp only [List.map_cons, hidx, List.range_succ_eq_map, List.map_map]
        congr 1
        apply List.map_congr_left
        intro a _
        simp
        omega
      · intro r hr
        rcases List.mem_cons.1 hr with hr0 | hr'
        · rw [hr0]
        · exact hdid r hr'

/-- C3: if the embedding call for chunk index `i` fails during a run over a
chunk list of length `N > i` (all earlier calls succeeding, with arbitrary
vectors `vs`) against a store holding the document and no prior chunks for
it, then: the run answers the 500 failure carrying that call's message, the
document's status is persisted as `failed`, and the chunk rows stored for
the document are exactly those with indices `0..i-1` — no chunk with index
`≥ i` exists. -/
theorem ingest_abort_on_embed_failure (embed : Embedder) (insertErr : InsertOracle)
    (docId : Nat)
    (chunks : List JsChunk) (db : DB) (i st : Nat) (t : Str) (vs : Nat → List Int)
    (doc : DocumentRow)
    (hins : ∀ r, insertErr r = none)
    (hdoc : fetchDoc db docId = some doc)
    (hclean : ∀ r ∈ db.document_chunks, r.document_id ≠ docId)
    (hk : i < chunks.length)
    (hfail : embed i ((chunks.get ⟨i, hk⟩).content) = EmbedResult.httpError st t)
    (hok : ∀ j (hj : j < i), embed j ((chunks.get ⟨j, hj.trans hk⟩).content) =
      EmbedResult.ok (vs j)) :
    (ingestAndComplete embed insertErr docId chunks db).2 =
      PdfOutcome.failure (embedFailMsg i st t) ∧
    statusOf (ingestAndComplete embed insertErr docId chunks db).1 docId = some failedStr ∧
    ((ingestAndComplete embed insertErr docId chunks db).1.document_chunks.filter
        (fun r => r.document_id == docId)).map (fun r => r.chunk_index) = List.range i := by
  have hfail0 : embed (0 + i) ((chunks.get ⟨i, hk⟩).content) = EmbedResult.httpError st t := by
    simpa using hfail
  have hok0 : ∀ j (hj : j < i), embed (0 + j) ((chunks.get ⟨j, hj.trans hk⟩).content) =
      EmbedResult.ok (vs (0 + j)) := by
    intro j hj
    simpa using hok j hj
  obtain ⟨rows, heq, hidx, hdid⟩ :=
    ingestChunks_fail_spec embed insertErr docId vs hins chunks i 0 db st t hk hfail0 hok0
  have hout : ingestAndComplete embed insertErr docId chunks db =
      (updateStatus { db with document_chunks := db.document_chunks ++ rows } docId failedStr,
        PdfOutcome.failure (embedFailMsg (0 + i) st t)) := by
    unfold ingestAndComplete
    rw [heq]
  rw [hout]
  refine ⟨by simp, ?_, ?_⟩
  · have hdoc' : fetchDoc { db with document_chunks := db.document_chunks ++ rows } docId =
        some doc := hdoc
    rw [statusOf, fetchDoc_updateStatus _ docId failedStr doc hdoc']
    rfl
  · have hchunks : (updateStatus { db with document_chunks := db.document_chunks ++ rows }
        docId failedStr).document_chunks = db.document_chunks ++ rows := rfl
    rw [hchunks, List.filter_append]
    have h1 : db.document_chunks.filter (fun r => r.document_id == docId) = [] := by
      rw [List.filter_eq_nil_iff]
      intro r hr
      simpa using hclean r hr
    have h2 : rows.filter (fun r => r.document_id == docId) = rows := by
      rw [List.filter_eq_self]
      intro r hr
      simpa using hdid r hr
    rw [h1, h2, List.nil_append, hidx]
    simp

/-- Ten concrete chunks, matching the spec's end-to-end scenario
"embedding-provider call for chunk index 3 of 10 fails". -/
def chunksTen : List JsChunk :=
  (List.range 10).map (fun n => { content := natStr n, page := 0, sect := none })

def providerErrText : Str := "Rate limit exceeded".toList

/-- An embedder that succeeds on the first three calls and fails with HTTP
429 and a provider error body on every later one. -/
def embedC3 : Embedder := fun i _ =>
  if i < 3 then EmbedResult.ok [(i : Int)] else EmbedResult.httpError 429 providerErrText

def docC3 : DocumentRow :=
  { id := 5
    user_id := 2
    title := "FCOM A321".toList
    file_name := "fcom.pdf".toList
    file_path := "u2/fcom.pdf".toList
    file_size := some 1024
    document_type := some "FCOM".toList
    processing_status := pendingStr
    total_chunks := 0 }

def dbC3 : DB := { documents := [docC3], document_chunks := [] }

/-- C3 witness: chunk 3 of 10 fails → 500 with that call's message, status
`failed`, stored chunk indices exactly `0..2`. -/
theorem ingest_abort_on_embed_failure_witness :
    (ingestAndComplete embedC3 insertOk 5 chunksTen dbC3).2 =
      PdfOutcome.failure (embedFailMsg 3 429 providerErrText) ∧
    statusOf (ingestAndComplete embedC3 insertOk 5 chunksTen dbC3).1 5 = some failedStr ∧
    ((ingestAndComplete embedC3 insertOk 5 chunksTen dbC3).1.document_chunks.filter
        (fun r => r.document_id == 5)).map (fun r => r.chunk_index) = List.range 3 :=
  ingest_abort_on_embed_failure embedC3 insertOk 5 chunksTen dbC3 3 429 providerErrText
    (fun j => [(j : Int)]) docC3 (fun _ => rfl) rfl (by simp [dbC3]) (by decide) rfl
    (by intro j hj; interval_cases j <;> rfl)

/-! ## C4: chunked text is a pure function of title, type and file name -/

/-- C4: the deployed ingestion function builds its text from the fixed
metadata template only (`extractedText`, lines 63-66) and never reads the
stored file (no storage call exists in the function, which is why `DB`
carries no blob store): two document records agreeing on `title`,
`document_type` and `file_name` — with arbitrary ids, owners, file paths,
file sizes, statuses and chunk counts — yield the same template, the same
chunker outcome at every fuel, and the same post-fetch handler behavior on
any store. -/
theorem processPdf_content_from_metadata_only (d1 d2 : DocumentRow)
    (ht : d1.title = d2.title) (hty : d1.document_type = d2.document_type)
    (hf : d1.file_name = d2.file_name) :
    extractedTextOf d1 = extractedTextOf d2 ∧
    (∀ (pageOf : PageHeuristic) (sectOf : SectHeuristic) (fuel : Nat),
      splitTextIntoChunks pageOf sectOf (extractedTextOf d1) 1000 200 fuel =
        splitTextIntoChunks pageOf sectOf (extractedTextOf d2) 1000 200 fuel) ∧
    (∀ (embed : Embedder) (insertErr : InsertOracle) (pageOf : PageHeuristic)
        (sectOf : SectHeuristic) (fuel : Nat) (db : DB) (docId : Nat),
      processAfterFetch embed insertErr pageOf sectOf fuel db docId d1 =
        processAfterFetch embed insertErr pageOf sectOf fuel db docId d2) := by
  have htext : extractedTextOf d1 = extractedTextOf d2 := by
    unfold extractedTextOf
    rw [ht, hty, hf]
  refine ⟨htext, fun pageOf sectOf fuel => by rw [htext],
    fun embed insertErr pageOf sectOf fuel db docId => ?_⟩
  unfold processAfterFetch
  rw [htext]

def docC4a : DocumentRow :=
  { id := 11
    user_id := 1
    title := "QRH A321".toList
    file_name := "qrh.pdf".toList
    file_path := "u1/a.pdf".toList
    file_size := some 111
    document_type := some "QRH".toList
    processing_status := pendingStr
    total_chunks := 0 }

/-- Same title, type and file name as `docC4a`; different id, owner, path,
size, status, chunk count (everything describing the stored file bytes). -/
def docC4b : DocumentRow :=
  { id := 12
    user_id := 9
    title := "QRH A321".toList
    file_name := "qrh.pdf".toList
    file_path := "u9/other-upload.pdf".toList
    file_size := some 99999
    document_type := some "QRH".toList
    processing_status := completedStr
    total_chunks := 4 }

/-- C4 witness. -/
theorem processPdf_content_from_metadata_only_witness :
    extractedTextOf docC4a = extractedTextOf docC4b ∧
    processAfterFetch embedZero insertOk pgZero scNone 1 dbC3 7 docC4a =
      processAfterFetch embedZero insertOk pgZero scNone 1 dbC3 7 docC4b :=
  ⟨(processPdf_content_from_metadata_only docC4a docC4b rfl rfl rfl).1,
    (processPdf_content_from_metadata_only docC4a docC4b rfl rfl rfl).2.2
      embedZero insertOk pgZero scNone 1 dbC3 7⟩

/-! ## C5: content of error responses -/

def ocrNone : OcrEngine := fun _ => Except.error ()

def areaOne : Nat → ℚ := fun _ => 1

def engineFailC5 : List Nat → Except Str PdfEngineDoc :=
  fun _ => Except.error "Invalid PDF structure".toList

def reqC5 : ExtractRequest := { method := "POST".toList, file := some (some "m.pdf".toList, [37]) }

/-- C5 counterexample: the claim states no text originating from the
extraction engine's error output is ever included in a client-visible error
response; but when the engine rejects a one-byte upload with the message
`Invalid PDF structure`, the extraction endpoint's 500 body carries that
engine message verbatim in its `details` field
(`details: error.message`, `pdf-extract.ts:232`). -/
theorem pdfExtract_error_details_cex :
    pdfExtractHandler engineFailC5 ocrNone areaOne true reqC5 =
      ExtractResponse.serverError "PDF processing failed".toList
        "Invalid PDF structure".toList := rfl

/-- Every message the chunk loop can throw is an embedding-failure message
(line 97), an invalid-embedding-response message (line 103), or a
store-insert-failure message (line 122). -/
theorem ingestChunks_error_msg_forms (embed : Embedder) (insertErr : InsertOracle)
    (docId : Nat) :
    ∀ (cs : List JsChunk) (i : Nat) (db db' : DB) (m : Str),
      ingestChunks embed insertErr docId cs i db = (db', Except.error m) →
      (∃ k st t, m = embedFailMsg k st t) ∨ (∃ k, m = invalidEmbedMsg k) ∨
        (∃ k sm, m = storeFailMsg k sm) := by
  intro cs
  induction cs with
  | nil =>
    intro i db db' m h
    simp [ingestChunks] at h
  | cons c rest ih =>
    intro i db db' m h
    unfold ingestChunks at h
    cases he : embed i c.content with
    | httpError st t =>
      simp only [he] at h
      refine Or.inl ⟨i, st, t, ?_⟩
      have h2 : embedFailMsg i st t = m := by
        simpa using congrArg Prod.snd h
      exact h2.symm
    | malformed =>
      simp only [he] at h
      refine Or.inr (Or.inl ⟨i, ?_⟩)
      have h2 : invalidEmbedMsg i = m := by
        simpa using congrArg Prod.snd h
      exact h2.symm
    | ok v =>
      simp only [he] at h
      cases hi : insertErr
          { id := db.document_chunks.length
            document_id := docId
            chunk_index := i
            content := c.content
            page_number := c.page
            section_title := c.sect
            embedding := v } with
      | some sm =>
        simp only [hi] at h
        refine Or.inr (Or.inr ⟨i, sm, ?_⟩)
        have h2 : storeFailMsg i sm = m := by
          simpa using congrArg Prod.snd h
        exact h2.symm
      | none =>
        simp only [hi] at h
        exact ih (i + 1) _ db' m h

/-- Evaluation of the handler on a well-formed POST upload, up to the
file-size check. -/
theorem pdfExtractHandler_post (engine : List Nat → Except Str PdfEngineDoc)
    (ocr : OcrEngine) (areaAt : Nat → ℚ) (workerOk : Bool)
    (name : Option Str) (bytes : List Nat) :
    pdfExtractHandler engine ocr areaAt workerOk
        { method := "POST".toList, file := some (name, bytes) } =
      (if bytes.length = 0 then ExtractResponse.badRequest "Empty file uploaded".toList
      else
        match engine bytes with
        | Except.error m => ExtractResponse.serverError "PDF processing failed".toList m
        | Except.ok doc =>
          let pages0 := buildPageContents doc.pages
          let pages1 := ocrStage ocr areaAt workerOk pages0
          let finalText := finalTextOf pages1
          let content :=
            if jsTrim finalText = [] ∧ 0 < doc.numPages then
              placeholderText doc.numPages (extractTitle doc.title name)
            else finalText
          ExtractResponse.okResp content (processingMethodOf pages0) doc.numPages) := rfl

/-- C5 amended: error responses carry no call stack (no branch ever emits
one), but they are not limited to a generic indicator.  First conjunct: an
extraction request that fails after upload validation answers 500 with the
generic top-level error `PDF processing failed` *plus* the engine's error
message verbatim in `details`.  Second conjunct: every failure the ingestion
endpoint can answer carries exactly the internally thrown message — the
request-body SyntaxError's own text (line 30), the missing-id message (line
34), `Failed to fetch document:` plus the store's error text (line 50), the
chunker's TypeError message, an embedding-failure message embedding the
provider's HTTP status and response body (line 97), the
invalid-embedding-response message (line 103), or a store-insert-failure
message embedding the store's error text (line 122) — so provider, store
and parser error text does reach the client (though no run reaches the
embedding or insert messages at the deployed parameters — see C1). -/
theorem error_response_content_amended :
    (∀ (engine : List Nat → Except Str PdfEngineDoc) (ocr : OcrEngine) (areaAt : Nat → ℚ)
        (workerOk : Bool) (name : Option Str) (bytes : List Nat) (m : Str),
      bytes ≠ [] → engine bytes = Except.error m →
      pdfExtractHandler engine ocr areaAt workerOk
          { method := "POST".toList, file := some (name, bytes) } =
        ExtractResponse.serverError "PDF processing failed".toList m) ∧
    (∀ (embed : Embedder) (insertErr : InsertOracle) (pageOf : PageHeuristic)
        (sectOf : SectHeuristic) (docErrMsg : Str) (fuel : Nat)
        (db : DB) (body : Except Str (Option Nat)) (m : Str),
      (processPdfServe embed insertErr pageOf sectOf docErrMsg fuel db body).2 =
        some (PdfOutcome.failure m) →
      body = Except.error m ∨ m = missingIdMsg ∨ m = fetchFailMsgOf docErrMsg ∨
        m = constAssignMsg ∨ (∃ k st t, m = embedFailMsg k st t) ∨
        (∃ k, m = invalidEmbedMsg k) ∨ (∃ k sm, m = storeFailMsg k sm)) := by
  constructor
  · intro engine ocr areaAt workerOk name bytes m hb hengine
    rw [pdfExtractHandler_post]
    have hlen : ¬bytes.length = 0 := by simpa [List.length_eq_zero] using hb
    rw [if_neg hlen, hengine]
  · intro embed insertErr pageOf sectOf docErrMsg fuel db body m h
    match body with
    | Except.error m0 =>
      left
      have h2 : m0 = m := by simpa [processPdfServe] using h
      rw [h2]
    | Except.ok none =>
      right; left
      have h2 : missingIdMsg = m := by simpa [processPdfServe] using h
      exact h2.symm
    | Except.ok (some docId) =>
      rw [show processPdfServe embed insertErr pageOf sectOf docErrMsg fuel db
          (Except.ok (some docId)) =
          (match fetchDoc db docId with
          | none =>
            (updateStatus db docId failedStr,
              some (PdfOutcome.failure (fetchFailMsgOf docErrMsg)))
          | some doc => processAfterFetch embed insertErr pageOf sectOf fuel
              (updateStatus db docId processingStr) docId doc) from rfl] at h
      cases hf : fetchDoc db docId with
      | none =>
        rw [hf] at h
        right; right; left
        have : PdfOutcome.failure (fetchFailMsgOf docErrMsg) = PdfOutcome.failure m := by
          simpa using h
        simpa using this.symm
      | some doc =>
        rw [hf] at h
        rw [show (match some doc with
            | none =>
              (updateStatus db docId failedStr,
                some (PdfOutcome.failure (fetchFailMsgOf docErrMsg)))
            | some doc => processAfterFetch embed insertErr pageOf sectOf fuel
                (updateStatus db docId processingStr) docId doc) =
            processAfterFetch embed insertErr pageOf sectOf fuel
              (updateStatus db docId processingStr) docId doc from rfl] at h
        rw [processAfterFetch] at h
        cases hc : splitTextIntoChunks pageOf sectOf (extractedTextOf doc) 1000 200 fuel with
        | none => rw [hc] at h; simp at h
        | some r =>
          rw [hc] at h
          cases r with
          | error u =>
            right; right; right; left
            cases u
            have : some (PdfOutcome.failure constAssignMsg) = some (PdfOutcome.failure m) := by
              simpa using h
            simpa using this.symm
          | ok chunks =>
            have h2 : (ingestAndComplete embed insertErr docId chunks
                (updateStatus db docId processingStr)).2 = PdfOutcome.failure m := by
              simpa using h
            unfold ingestAndComplete at h2
            cases hic : ingestChunks embed insertErr docId chunks 0
                (updateStatus db docId processingStr) with
            | mk db1 r1 =>
              rw [hic] at h2
              cases r1 with
              | ok u => cases u; simp at h2
              | error m' =>
                have hm : m' = m := by simpa using h2
                rcases ingestChunks_error_msg_forms embed insertErr docId chunks 0 _ db1 m'
                    hic with ⟨k, st, t, hmsg⟩ | ⟨k, hmsg⟩ | ⟨k, sm, hmsg⟩
                · exact Or.inr (Or.inr (Or.inr (Or.inr (Or.inl ⟨k, st, t, by
                    rw [← hm, hmsg]⟩))))
                · exact Or.inr (Or.inr (Or.inr (Or.inr (Or.inr (Or.inl ⟨k, by
                    rw [← hm, hmsg]⟩)))))
                · exact Or.inr (Or.inr (Or.inr (Or.inr (Or.inr (Or.inr ⟨k, sm, by
                    rw [← hm, hmsg]⟩)))))

/-- C5 witness for `error_response_content_amended` (first conjunct) at a
concrete engine failure. -/
theorem error_response_content_amended_witness :
    pdfExtractHandler (fun _ => Except.error "bad XRef entry".toList) ocrNone areaOne false
        { method := "POST".toList, file := some (none, [1, 2]) } =
      ExtractResponse.serverError "PDF processing failed".toList "bad XRef entry".toList :=
  error_response_content_amended.1 (fun _ => Except.error "bad XRef entry".toList)
    ocrNone areaOne false none [1, 2] "bad XRef entry".toList (by decide) rfl

/-! ## C6: graceful degradation to lexical search -/

/-- The result list the fallback path serves: the fallback rows, capped at
`limit`, shaped by `formatFallback`. -/
def fallbackResultsOf (textMatch : Str → Str → Bool) (db : DB) (q : Str)
    (types : Option (List Str)) (lim : Nat) : List ResultRow :=
  ((fallbackRows textMatch db q types).take lim).map formatFallback

/-- C6: when the rpc fails with a message containing the
`function search_similar_chunks` marker (the primary ranking mechanism is
structurally unavailable), the handler answers a 200 of the same shape as
the primary path, built by lexical full-text matching over chunk content
with the same completed-status and category filters; every result carries
the fixed nominal similarity `0.5`; the list is capped at `limit`; no error
is surfaced. -/
theorem searchDocuments_fallback_on_unavailable (embedQ : Str → Except Unit (List Int))
    (dist : List Int → List Int → ℚ) (textMatch : Str → Str → Bool)
    (db : DB) (req : SearchRequest) (q : Str) (emb : List Int) (m : Str)
    (hq : req.query = some q) (hq' : q ≠ [])
    (hemb : embedQ q = Except.ok emb)
    (hmark : rpcMissingMarker <:+: m) :
    searchDocumentsServe embedQ dist textMatch (some m) db req =
      SearchResponse.ok (fallbackResultsOf textMatch db q req.documentTypes (req.limit.getD 5)) q
        (fallbackResultsOf textMatch db q req.documentTypes (req.limit.getD 5)).length ∧
    (∀ r ∈ fallbackResultsOf textMatch db q req.documentTypes (req.limit.getD 5),
      r.similarity = 1 / 2) ∧
    (fallbackResultsOf textMatch db q req.documentTypes (req.limit.getD 5)).length ≤
      req.limit.getD 5 ∧
    (∀ r ∈ fallbackResultsOf textMatch db q req.documentTypes (req.limit.getD 5),
      ∃ ch d, ch ∈ db.document_chunks ∧ d ∈ db.documents ∧ ch.document_id = d.id ∧
        textMatch ch.content q = true ∧ d.processing_status = completedStr ∧
        matchesTypes req.documentTypes d = true ∧ r = formatFallback (ch, d)) := by
  refine ⟨?_, ?_, ?_, ?_⟩
  · simp only [searchDocumentsServe, hq, hemb, if_neg hq', if_pos hmark]
    rfl
  · intro r hr
    rcases List.mem_map.1 hr with ⟨p, _, rfl⟩
    rfl
  · calc (fallbackResultsOf textMatch db q req.documentTypes (req.limit.getD 5)).length
        = ((fallbackRows textMatch db q req.documentTypes).take (req.limit.getD 5)).length := by
          simp [fallbackResultsOf]
      _ ≤ req.limit.getD 5 := List.length_take_le _ _
  · intro r hr
    rcases List.mem_map.1 hr with ⟨p, hp, rfl⟩
    have hp' : p ∈ fallbackRows textMatch db q req.documentTypes := List.take_subset _ _ hp
    rcases List.mem_filterMap.1 hp' with ⟨ch, hch, hsome⟩
    cases hfind : db.documents.find? (fun d => d.id == ch.document_id) with
    | none => rw [hfind] at hsome; simp at hsome
    | some d =>
      rw [hfind] at hsome
      have hsome' : (if (textMatch ch.content q && d.processing_status == completedStr &&
          matchesTypes req.documentTypes d) = true then some (ch, d) else none) = some p := hsome
      by_cases hcond : (textMatch ch.content q && d.processing_status == completedStr &&
          matchesTypes req.documentTypes d) = true
      · rw [if_pos hcond] at hsome'
        have hpd : (ch, d) = p := by simpa using hsome'
        rcases hpd with rfl
        have hdmem : d ∈ db.documents := List.mem_of_find?_eq_some hfind
        have hdid : d.id = ch.document_id := by
          have := List.find?_some hfind
          simpa using this
        simp only [Bool.and_eq_true] at hcond
        obtain ⟨⟨htm, hst⟩, hty⟩ := hcond
        refine ⟨ch, d, hch, hdmem, hdid.symm, htm, ?_, hty, rfl⟩
        simpa using hst
      · rw [if_neg hcond] at hsome'
        simp at hsome'

def docC6 : DocumentRow :=
  { id := 2
    user_id := 1
    title := "QRH".toList
    file_name := "q.pdf".toList
    file_path := "u1/q.pdf".toList
    file_size := none
    document_type := some "QRH".toList
    processing_status := completedStr
    total_chunks := 1 }

def chC6 : ChunkRow :=
  { id := 0
    document_id := 2
    chunk_index := 0
    content := "engine fire drill".toList
    page_number := 1
    section_title := none
    embedding := [1] }

def dbC6 : DB := { documents := [docC6], document_chunks := [chC6] }

/-- A full-text matcher that matches everything. -/
def tmTrue : Str → Str → Bool := fun _ _ => true

def embedQOne : Str → Except Unit (List Int) := fun _ => Except.ok [1]

def distZero : List Int → List Int → ℚ := fun _ _ => 0

/-- The error message PostgREST produces for a missing rpc function. -/
def rpcUnavailableMsg : Str :=
  "function search_similar_chunks does not exist".toList

/-- C6 witness. -/
theorem searchDocuments_fallback_on_unavailable_witness :
    searchDocumentsServe embedQOne distZero tmTrue (some rpcUnavailableMsg) dbC6
        { query := some "fire".toList, limit := none, documentTypes := none } =
      SearchResponse.ok (fallbackResultsOf tmTrue dbC6 "fire".toList none 5) "fire".toList
        (fallbackResultsOf tmTrue dbC6 "fire".toList none 5).length :=
  (searchDocuments_fallback_on_unavailable embedQOne distZero tmTrue dbC6
    { query := some "fire".toList, limit := none, documentTypes := none }
    "fire".toList [1] rpcUnavailableMsg rfl (by decide) rfl (by decide)).1

/-! ## C7: retrieval only returns chunks of completed documents -/

/-- Any pair surviving the chunk-document inner join with condition `cond`
consists of a stored chunk and its stored parent document satisfying the
condition. -/
theorem mem_join_filter (db : DB) (cond : ChunkRow → DocumentRow → Bool)
    (p : ChunkRow × DocumentRow)
    (hp : p ∈ db.document_chunks.filterMap (fun ch =>
      match db.documents.find? (fun d => d.id == ch.document_id) with
      | none => none
      | some d => if cond ch d then some (ch, d) else none)) :
    p.1 ∈ db.document_chunks ∧ p.2 ∈ db.documents ∧ p.1.document_id = p.2.id ∧
      cond p.1 p.2 = true := by
  rcases List.mem_filterMap.1 hp with ⟨ch, hch, hsome⟩
  cases hfind : db.documents.find? (fun d => d.id == ch.document_id) with
  | none => rw [hfind] at hsome; simp at hsome
  | some d =>
    rw [hfind] at hsome
    have hsome' : (if cond ch d then some (ch, d) else none) = some p := hsome
    by_cases hc : cond ch d = true
    · rw [if_pos hc] at hsome'
      obtain rfl : (ch, d) = p := by simpa using hsome'
      refine ⟨hch, List.mem_of_find?_eq_some hfind, ?_, hc⟩
      have hid := List.find?_some hfind
      simp only [beq_iff_eq] at hid
      exact hid.symm
    · rw [if_neg hc] at hsome'
      simp at hsome'

/-- C7: on every path on which the retrieval handler answers 200, each
returned item is a stored chunk whose owning document is stored with status
`completed` — the fallback filters on `documents.processing_status =
'completed'` in the query, and the primary ranking (spec-modelled, see
`search_similar_chunks`) ranks only chunks of completed documents. -/
theorem searchDocuments_only_completed (embedQ : Str → Except Unit (List Int))
    (dist : List Int → List Int → ℚ) (textMatch : Str → Str → Bool)
    (rpcErr : Option Str) (db : DB) (req : SearchRequest)
    (rs : List ResultRow) (q : Str) (t : Nat)
    (h : searchDocumentsServe embedQ dist textMatch rpcErr db req = SearchResponse.ok rs q t) :
    ∀ r ∈ rs, ∃ ch d, ch ∈ db.document_chunks ∧ d ∈ db.documents ∧
      ch.document_id = d.id ∧ r.id = ch.id ∧ d.processing_status = completedStr := by
  unfold searchDocumentsServe at h
  split at h
  · simp at h
  next q0 hq =>
    split at h
    · simp at h
    next hq0 =>
      dsimp only at h
      split at h
      · simp at h
      next emb hemb =>
        split at h
        next m hm =>
          split at h
          · cases h
            intro r hr
            rcases List.mem_map.1 hr with ⟨p, hp, rfl⟩
            have hp' := List.take_subset _ _ hp
            have hspec := mem_join_filter db
              (fun ch d => textMatch ch.content q && d.processing_status == completedStr &&
                matchesTypes req.documentTypes d) p hp'
            rcases hspec with ⟨hch, hd, hiddoc, hcond⟩
            simp only [Bool.and_eq_true, beq_iff_eq] at hcond
            exact ⟨p.1, p.2, hch, hd, hiddoc, rfl, hcond.1.2⟩
          · simp at h
        next hnone =>
          cases h
          intro r hr
          unfold search_similar_chunks at hr
          rcases List.mem_map.1 hr with ⟨p, hp, rfl⟩
          have hp1 := List.take_subset _ _ hp
          have hp' := List.mem_mergeSort.1 hp1
          have hspec := mem_join_filter db
            (fun _ d => d.processing_status == completedStr && matchesTypes req.documentTypes d)
            p hp'
          rcases hspec with ⟨hch, hd, hiddoc, hcond⟩
          simp only [Bool.and_eq_true, beq_iff_eq] at hcond
          exact ⟨p.1, p.2, hch, hd, hiddoc, rfl, hcond.1⟩

/-- C7 witness, on a concrete fallback-path run. -/
theorem searchDocuments_only_completed_witness :
    ∃ ch d, ch ∈ dbC6.document_chunks ∧ d ∈ dbC6.documents ∧ ch.document_id = d.id ∧
      (formatFallback (chC6, docC6)).id = ch.id ∧ d.processing_status = completedStr :=
  searchDocuments_only_completed embedQOne distZero tmTrue (some rpcUnavailableMsg) dbC6
    { query := some "q".toList, limit := some 2, documentTypes := some ["QRH".toList] }
    [formatFallback (chC6, docC6)] "q".toList 1 rfl (formatFallback (chC6, docC6)) (by simp)

/-! ## C9: retrieval preconditions -/

/-- C9 counterexample: a request with `limit = 0` (not strictly positive) is
neither rejected nor clamped: the handler executes the search with limit 0
and answers 200 with zero results, against a store holding a matching
completed chunk — the second conjunct shows the same request with
`limit = 1` returns that chunk, so the emptiness at 0 comes from the limit
being used as given. -/
theorem search_limit_zero_cex :
    searchDocumentsServe embedQOne distZero tmTrue (some rpcUnavailableMsg) dbC6
        { query := some "fire".toList, limit := some 0, documentTypes := none } =
      SearchResponse.ok [] "fire".toList 0 ∧
    searchDocumentsServe embedQOne distZero tmTrue (some rpcUnavailableMsg) dbC6
        { query := some "fire".toList, limit := some 1, documentTypes := none } =
      SearchResponse.ok [formatFallback (chC6, docC6)] "fire".toList 1 :=
  ⟨rfl, rfl⟩

/-- C9 amended: the handler rejects an absent or empty `query` with the
error `Search query is required` (JavaScript truthiness), and an absent
`limit` defaults to 5; but a non-positive `limit` is not rejected and not
clamped — it is passed to the store as given, so `limit = 0` yields a
successful empty result on every path. -/
theorem search_preconditions_amended :
    (∀ (embedQ : Str → Except Unit (List Int)) (dist : List Int → List Int → ℚ)
        (textMatch : Str → Str → Bool) (rpcErr : Option Str) (db : DB) (req : SearchRequest),
      (req.query = none ∨ req.query = some []) →
      searchDocumentsServe embedQ dist textMatch rpcErr db req =
        SearchResponse.err searchQueryRequiredMsg) ∧
    (∀ (embedQ : Str → Except Unit (List Int)) (dist : List Int → List Int → ℚ)
        (textMatch : Str → Str → Bool) (rpcErr : Option Str) (db : DB) (req : SearchRequest)
        (rs : List ResultRow) (q : Str) (t : Nat),
      req.limit = some 0 →
      searchDocumentsServe embedQ dist textMatch rpcErr db req = SearchResponse.ok rs q t →
      rs = []) := by
  constructor
  · intro embedQ dist textMatch rpcErr db req hq
    rcases hq with hq | hq <;> simp [searchDocumentsServe, hq]
  · intro embedQ dist textMatch rpcErr db req rs q t hlim h
    unfold searchDocumentsServe at h
    split at h
    · simp at h
    next q0 hq =>
      split at h
      · simp at h
      next hq0 =>
        dsimp only at h
        split at h
        · simp at h
        next emb hemb =>
          split at h
          next m hm =>
            split at h
            · cases h
              simp [hlim]
            · simp at h
          next hnone =>
            cases h
            simp [search_similar_chunks, hlim]

/-- C9 witness for `search_preconditions_amended`: the empty query is
rejected. -/
theorem search_preconditions_amended_witness :
    searchDocumentsServe embedQOne distZero tmTrue none dbC6
        { query := some [], limit := none, documentTypes := none } =
      SearchResponse.err searchQueryRequiredMsg :=
  search_preconditions_amended.1 embedQOne distZero tmTrue none dbC6
    { query := some [], limit := none, documentTypes := none } (Or.inr rfl)

/-! ## C8: the OCR fallback stage -/

/-- An OCR engine whose output is always long (and would win any
length comparison). -/
def ocrRich : OcrEngine := fun _ => Except.ok "recognized text with many more characters".toList

/-- A flagged page with a short two-character extraction. -/
def pFlag (n : Nat) : PDFPageContent :=
  { pageNumber := n, text := "ab".toList, textDensity := 0, needsOCR := true }

def pagesFour : List PDFPageContent := [pFlag 1, pFlag 2, pFlag 3, pFlag 4]

/-- C8 counterexample: the claim states the fallback is invoked for *every*
flagged page; but the stage only runs when at most 3 pages are flagged
(`ocrPages.length > 0 && ocrPages.length <= 3`, `pdf-extract.ts:133`).  With
four flagged pages and an OCR engine whose (trimmed) output is strictly
longer than every original text — so the claim demands each page's text be
replaced — the stage returns all four pages unchanged. -/
theorem ocrStage_skips_when_many_flagged_cex :
    ocrStage ocrRich areaOne true pagesFour = pagesFour ∧
    ("ab".toList : Str).length <
      (jsTrim "recognized text with many more characters".toList).length :=
  ⟨rfl, by decide⟩

/-- C8 amended: (a) when more than three pages are flagged, no page is
processed at all and every page keeps its original text; (b) when between
one and three pages are flagged (page numbers distinct, worker available),
exactly the flagged pages are processed, each through `tryOcrUpdate`; and
`tryOcrUpdate` keeps the original text on any per-page recognition failure
or timeout (c), keeps it when the trimmed recognition output is not strictly
longer (d), and replaces it with the trimmed recognition output when it is
strictly longer (e). -/
theorem ocrStage_amended :
    (∀ (ocr : OcrEngine) (areaAt : Nat → ℚ) (workerOk : Bool) (pages : List PDFPageContent),
      3 < (pages.filter (fun p => p.needsOCR)).length →
      ocrStage ocr areaAt workerOk pages = pages) ∧
    (∀ (ocr : OcrEngine) (areaAt : Nat → ℚ) (pages : List PDFPageContent),
      (pages.map (fun p => p.pageNumber)).Nodup →
      (pages.filter (fun p => p.needsOCR)).length ≤ 3 →
      ocrStage ocr areaAt true pages =
        pages.map (fun p => if p.needsOCR then tryOcrUpdate ocr areaAt p else p)) ∧
    (∀ (ocr : OcrEngine) (areaAt : Nat → ℚ) (p : PDFPageContent),
      ocr p.pageNumber = Except.error () → tryOcrUpdate ocr areaAt p = p) ∧
    (∀ (ocr : OcrEngine) (areaAt : Nat → ℚ) (p : PDFPageContent) (t : Str),
      ocr p.pageNumber = Except.ok t → (jsTrim t).length ≤ p.text.length →
      tryOcrUpdate ocr areaAt p = p) ∧
    (∀ (ocr : OcrEngine) (areaAt : Nat → ℚ) (p : PDFPageContent) (t : Str),
      ocr p.pageNumber = Except.ok t → p.text.length < (jsTrim t).length →
      (tryOcrUpdate ocr areaAt p).text = jsTrim t) := by
  refine ⟨?_, ?_, ?_, ?_, ?_⟩
  · intro ocr areaAt workerOk pages hgt
    unfold ocrStage
    rw [if_neg (by omega)]
  · intro ocr areaAt pages hnd hle
    unfold ocrStage
    by_cases hpos : 0 < (pages.filter (fun p => p.needsOCR)).length
    · rw [if_pos ⟨hpos, hle⟩, if_pos rfl]
      rw [List.take_of_length_le hle]
      apply List.map_congr_left
      intro p hp
      have hcontains : ((pages.filter (fun p => p.needsOCR)).map
          (fun p => p.pageNumber)).contains p.pageNumber = p.needsOCR := by
        by_cases hflag : p.needsOCR
        · simp only [hflag]
          have hmem : p.pageNumber ∈ (pages.filter (fun p => p.needsOCR)).map
              (fun p => p.pageNumber) :=
            List.mem_map.2 ⟨p, List.mem_filter.2 ⟨hp, hflag⟩, rfl⟩
          simpa [List.elem_iff] using hmem
        · simp only [Bool.not_eq_true] at hflag
          rw [hflag]
          by_cases hmem : p.pageNumber ∈ (pages.filter (fun p => p.needsOCR)).map
              (fun p => p.pageNumber)
          · exfalso
            rcases List.mem_map.1 hmem with ⟨p2, hp2, hpn⟩
            have hp2' := List.mem_filter.1 hp2
            have heq : p2 = p := List.inj_on_of_nodup_map hnd hp2'.1 hp hpn
            have hcontr := hp2'.2
            rw [heq] at hcontr
            rw [hflag] at hcontr
            exact absurd hcontr (by decide)
          · simpa [List.elem_iff] using hmem
      rw [hcontains]
    · rw [if_neg (by omega)]
      have hlen0 : (pages.filter (fun p => p.needsOCR)).length = 0 := by omega
      have hnil : pages.filter (fun p => p.needsOCR) = [] := List.length_eq_zero.1 hlen0
      have hall : ∀ p ∈ pages, p.needsOCR = false := by
        intro p hp
        by_cases hflag : p.needsOCR
        · exfalso
          have : p ∈ pages.filter (fun p => p.needsOCR) := List.mem_filter.2 ⟨hp, hflag⟩
          rw [hnil] at this
          simp at this
        · simpa using hflag
      have : pages.map (fun p => if p.needsOCR then tryOcrUpdate ocr areaAt p else p) = pages := by
        have hcongr : pages.map (fun p => if p.needsOCR then tryOcrUpdate ocr areaAt p else p) =
            pages.map (fun p => p) := by
          apply List.map_congr_left
          intro p hp
          rw [hall p hp]
          simp
        rw [hcongr, List.map_id']
      rw [this]
  · intro ocr areaAt p h
    unfold tryOcrUpdate
    rw [h]
  · intro ocr areaAt p t h hle
    unfold tryOcrUpdate
    rw [h]
    simp only []
    rw [if_neg (by omega)]
  · intro ocr areaAt p t h hlt
    unfold tryOcrUpdate
    rw [h]
    simp only []
    rw [if_pos hlt]

/-- OCR succeeds with a longer text on page 1 and fails (or times out) on
page 2. -/
def ocrMix : OcrEngine := fun n =>
  if n = 1 then Except.ok " long recognized replacement text ".toList else Except.error ()

def pagesTwo : List PDFPageContent := [pFlag 1, pFlag 2]

/-- C8 witness for `ocrStage_amended`: with two flagged pages, page 1's text
is replaced by the trimmed, strictly longer recognition output while page 2
keeps its original text after its recognition failure, and the stage
completes. -/
theorem ocrStage_amended_witness :
    ocrStage ocrMix areaOne true pagesTwo =
      [{ pageNumber := 1
         text := jsTrim " long recognized replacement text ".toList
         textDensity := ((jsTrim " long recognized replacement text ".toList).length : ℚ) *
           10000 / areaOne 1
         needsOCR := true }, pFlag 2] := by
  have h := ocrStage_amended.2.1 ocrMix areaOne pagesTwo (by decide) (by decide)
  rw [h]
  rfl
